import Mathlib

/-!
Verification of the distillation orchestration core of mmrazor
(`mmrazor/models/algorithms/distill/configurable/configurable_distill.py` and
`fpn_teacher_distill.py`).

The embedding is shallow: Python dicts become association lists
(`List (String × _)`) preserving insertion/iteration order; recorded values
(tensors) are a type parameter `α`; fallible operations return `Option` or
`Except`.  The external collaborators (Recorder instances, the model registry,
loss modules) are represented by their contracts only, as the spec scopes them.
-/

namespace Mmrazor

/-- The Recorder contract (the concrete recorder implementations live outside
the excerpted core): given an invocation index `record_idx` and an optional
data sub-index `data_idx`, return the captured value, or `none` when the
recorder was never populated at that index (`RuntimeResolutionError`).
Mirrors `recorder_.get_record_data(record_idx, data_idx)`. -/
structure Recorder (α : Type) where
  get_record_data : Nat → Option Nat → Option α

/-- A `RecorderManager` owns a name-indexed mapping of recorders
(`self.student_recorders.recorders` in the source). -/
structure RecorderManager (α : Type) where
  recorders : List (String × Recorder α)

/-- The `manager.get_recorder(name)` operation: lookup by logical name;
`none` models the NotFound failure. -/
def RecorderManager.get_recorder (m : RecorderManager α) (name : String) :
    Option (Recorder α) :=
  m.recorders.lookup name

/-- A loss module, represented by its contract: the formal parameter names of
its `forward` (what `signature(loss_module.forward).parameters.keys()`
introspects) and the callable itself, consuming the assembled keyword
arguments. -/
structure LossModule (α : Type) where
  params : List String
  forward : List (String × α) → α

/-- One record location of a `loss_forward_mappings` entry: the keyword
arguments accepted by `get_record`.  In the source this is a dict with keys
`recorder`, `from_student` and optionally `record_idx` (default 0) and
`data_idx` (default None); the embedding carries all four fields. -/
structure RecordLocation where
  recorder : String
  from_student : Bool
  record_idx : Nat
  data_idx : Option Nat
deriving DecidableEq, Repr

/-- An `ArgumentMap`: loss-forward argument name to record location. -/
abbrev ArgumentMap := List (String × RecordLocation)

/-- A `LossForwardMapping`: loss name to `ArgumentMap`. -/
abbrev LossForwardMapping := List (String × ArgumentMap)

/-- The state of a `ConfigurableDistill` algorithm instance that the
orchestration core reads: the two recorder managers and the built losses and
validated mapping. -/
structure ConfigurableDistill (α : Type) where
  student_recorders : RecorderManager α
  teacher_recorders : RecorderManager α
  distill_losses : List (String × LossModule α)
  loss_forward_mappings : LossForwardMapping

/-- The method `ConfigurableDistill.get_record`: select the manager by `from_student`
(the instance's own attributes `self.student_recorders` /
`self.teacher_recorders`), look up the named recorder, and retrieve its data
at `record_idx` / `data_idx`. -/
def ConfigurableDistill.get_record (self : ConfigurableDistill α)
    (loc : RecordLocation) : Option α :=
  let mgr := if loc.from_student then self.student_recorders
             else self.teacher_recorders
  (mgr.get_recorder loc.recorder).bind
    fun r => r.get_record_data loc.record_idx loc.data_idx

/-- The inner loop of `compute_distill_losses`: resolve every
(argument name, record location) pair of one `ArgumentMap` through
`self.get_record(**record_info)`, assembling `forward_kwargs` in the
mapping's iteration order. -/
def ConfigurableDistill.resolveArgs (self : ConfigurableDistill α) :
    ArgumentMap → Option (List (String × α))
  | [] => some []
  | (k, loc) :: rest =>
    match self.get_record loc, self.resolveArgs rest with
    | some v, some l => some ((k, v) :: l)
    | _, _ => none

/-- The method `compute_distill_losses(self, distill_losses, loss_forward_mappings,
student_recorders, teacher_recorders)`: for each loss name in the mapping's
iteration order, resolve the keyword arguments via `self.get_record`, look up
the loss module and invoke it, collecting results under the loss names.  The
`student_recorders` / `teacher_recorders` parameters appear in the source
signature but are never read by the body, which resolves records only through
the instance attributes inside `get_record`. -/
def ConfigurableDistill.compute_distill_losses (self : ConfigurableDistill α)
    (distill_losses : List (String × LossModule α))
    (loss_forward_mappings : LossForwardMapping)
    (student_recorders teacher_recorders : RecorderManager α) :
    Option (List (String × α)) :=
  match loss_forward_mappings with
  | [] => some []
  | (loss_name, forward_mappings) :: rest =>
    match self.resolveArgs forward_mappings,
          distill_losses.lookup loss_name,
          self.compute_distill_losses distill_losses rest
            student_recorders teacher_recorders with
    | some kwargs, some lm, some acc => some ((loss_name, lm.forward kwargs) :: acc)
    | _, _, _ => none

/-- The failure conditions of `_check_loss_forward_mappings`.  The dynamic
shape checks of the source (mapping not a dict, argument map not a dict,
missing `recorder`/`from_student` field, non-bool `from_student`) are
unrepresentable in the typed embedding and so cannot arise here. -/
inductive CheckError where
  | missingLoss (loss_name : String)
  | signatureMismatch (loss_name : String)
  | unknownArgument (loss_name forward_key : String)
  | unknownRecorder (loss_name forward_key : String)
deriving DecidableEq, Repr

/-- The per-key body of the validation loop (`for forward_key, record_info in
forward_mappings.items()`): the key must be among the signature's parameter
names, and the named recorder must exist in the manager selected by
`from_student`. -/
def checkKey (loss_forward_keys : List String)
    (student_recorders teacher_recorders : RecorderManager α)
    (loss_name forward_key : String) (record_info : RecordLocation) :
    Except CheckError Unit :=
  if forward_key ∈ loss_forward_keys then
    if record_info.from_student then
      if (student_recorders.recorders.lookup record_info.recorder).isSome then
        .ok ()
      else .error (.unknownRecorder loss_name forward_key)
    else
      if (teacher_recorders.recorders.lookup record_info.recorder).isSome then
        .ok ()
      else .error (.unknownRecorder loss_name forward_key)
  else .error (.unknownArgument loss_name forward_key)

/-- The per-key loop over one `ArgumentMap`, failing at the first bad key. -/
def checkKeys (loss_forward_keys : List String)
    (student_recorders teacher_recorders : RecorderManager α)
    (loss_name : String) : ArgumentMap → Except CheckError Unit
  | [] => .ok ()
  | (forward_key, record_info) :: rest =>
    match checkKey loss_forward_keys student_recorders teacher_recorders
        loss_name forward_key record_info with
    | .ok () => checkKeys loss_forward_keys student_recorders teacher_recorders
        loss_name rest
    | .error e => .error e

/-- Validation of one `loss_forward_mappings` entry: the loss name must be a
key of the built losses (`assert loss_name in losses`), then the count
pre-check `len(loss_forward_keys) == len(forward_mappings.keys())`, then the
per-key loop. -/
def checkEntry (losses : List (String × LossModule α))
    (student_recorders teacher_recorders : RecorderManager α)
    (loss_name : String) (forward_mappings : ArgumentMap) :
    Except CheckError Unit :=
  match losses.lookup loss_name with
  | none => .error (.missingLoss loss_name)
  | some lm =>
    if lm.params.length = forward_mappings.length then
      checkKeys lm.params student_recorders teacher_recorders
        loss_name forward_mappings
    else .error (.signatureMismatch loss_name)

/-- The method `_check_loss_forward_mappings(losses, loss_forward_mappings,
student_recorders, teacher_recorders)`: validate every entry in iteration
order, failing at the first violation.  (The source reads the managers through
`self`; at its only call site these equal the passed arguments.) -/
def check_loss_forward_mappings (losses : List (String × LossModule α))
    (loss_forward_mappings : LossForwardMapping)
    (student_recorders teacher_recorders : RecorderManager α) :
    Except CheckError Unit :=
  match loss_forward_mappings with
  | [] => .ok ()
  | (loss_name, forward_mappings) :: rest =>
    match checkEntry losses student_recorders teacher_recorders
        loss_name forward_mappings with
    | .ok () => check_loss_forward_mappings losses rest
        student_recorders teacher_recorders
    | .error e => .error e

/-- The `loss_forward_mappings` handling of `ConfigurableDistill.__init__`:
`if loss_forward_mappings:` — when the argument is `None` or an empty mapping
(falsy), validation is skipped and the stored mapping is the empty dict;
otherwise the mapping is validated and stored. -/
def initLossForwardMappings (losses : List (String × LossModule α))
    (loss_forward_mappings : Option LossForwardMapping)
    (student_recorders teacher_recorders : RecorderManager α) :
    Except CheckError LossForwardMapping :=
  match loss_forward_mappings with
  | none => .ok []
  | some m =>
    if m.isEmpty then .ok []
    else
      match check_loss_forward_mappings losses m
          student_recorders teacher_recorders with
      | .ok () => .ok m
      | .error e => .error e

/-- Boolean prefix test on character lists. -/
def charStartsWith : List Char → List Char → Bool
  | [], _ => true
  | _ :: _, [] => false
  | a :: as, b :: bs => a == b && charStartsWith as bs

/-- Boolean substring test on character lists. -/
def charSubstring (p : List Char) : List Char → Bool
  | [] => charStartsWith p []
  | b :: bs => charStartsWith p (b :: bs) || charSubstring p bs

/-- Python's `'loss' in loss_name` substring test. -/
def containsLoss (loss_name : String) : Bool :=
  charSubstring "loss".toList loss_name.toList

/-- The loop of `build_distill_losses`: for each (name, config) entry,
`assert loss_name not in distill_losses` (duplicate registration is fatal),
warn when the name lacks the substring `"loss"`, then build and register the
module.  The registry `MODELS.build` is an opaque factory, so a config is
identified with the module it builds.  Returns the registered modules in
order together with the list of warned names; a duplicate name is the
`Except` error. -/
def buildLoop (seen : List String) :
    List (String × LossModule α) →
    Except String (List (String × LossModule α) × List String)
  | [] => .ok ([], [])
  | (loss_name, lm) :: rest =>
    if loss_name ∈ seen then .error loss_name
    else
      match buildLoop (loss_name :: seen) rest with
      | .ok (mods, warned) =>
        .ok ((loss_name, lm) :: mods,
             if containsLoss loss_name then warned else loss_name :: warned)
      | .error e => .error e

/-- Top level of `build_distill_losses(losses)`: `None` (or empty) builds the empty module
dict with no warnings. -/
def build_distill_losses :
    Option (List (String × LossModule α)) →
    Except String (List (String × LossModule α) × List String)
  | none => .ok ([], [])
  | some cfgs => buildLoop [] cfgs

/-- The observable steps of `FpnTeacherDistill.loss`, in program order.
`setOverrideData b` is the assignment `delivery_manager.override_data = b`;
the forward events carry which scopes are active around them
(`teacherExtractFeat r d`: teacher recorders / deliveries;
`teacherFullForward r d g`: additionally `g` = inside `torch.no_grad()`;
`studentForward r d`: student recorders / deliveries).
Modelled from the spec for the parts outside the excerpt: the parent class
`SingleTeacherDistill` is not in the excerpt, and the spec (§2, §4.5)
describes a single delivery manager owned by the algorithm, so the
`delivery_manager` and `distill_deliveries` attribute names both denote that
one manager. -/
inductive Event where
  | setOverrideData (b : Bool)
  | teacherExtractFeat (teacherRecordersActive deliveriesActive : Bool)
  | teacherFullForward (teacherRecordersActive deliveriesActive noGrad : Bool)
  | studentForward (studentRecordersActive deliveriesActive : Bool)
deriving DecidableEq, Repr

/-- The event trace of one `FpnTeacherDistill.loss` invocation, by branch on
`self.teacher_trainable`: set override off; run the teacher (trunk-only when
trainable, full and gradient-disabled otherwise) inside teacher-recorder and
delivery scopes; set override on; run the student inside student-recorder and
delivery scopes. -/
def fpnTeacherLossTrace (teacher_trainable : Bool) : List Event :=
  [.setOverrideData false,
   if teacher_trainable then .teacherExtractFeat true true
   else .teacherFullForward true true true,
   .setOverrideData true,
   .studentForward true true]

/-- The value of the shared `override_data` flag in effect at position `i` of
a trace: the last assignment strictly before `i` (`none` when no assignment
precedes `i`). -/
def overrideBefore (tr : List Event) (i : Nat) : Option Bool :=
  ((tr.take i).filterMap fun e =>
    match e with
    | .setOverrideData b => some b
    | _ => none).getLast?

/-- Modelled from the spec: `add_prefix` lives in `mmrazor.models.utils`,
outside the excerpt; the spec (§4.5, §6) names the produced keys
`student.<key>` / `distill.<key>`, i.e. every key is namespaced under the
given prefix. -/
def add_prefix (losses : List (String × α)) (p : String) : List (String × α) :=
  losses.map fun kv => (p ++ "." ++ kv.1, kv.2)

/-- The result mapping of `FpnTeacherDistill.loss`: the student forward
pass's losses (an input here, since the models are external) prefixed with
`student`, followed by the distillation driver's losses prefixed with
`distill`; `none` when the driver fails to resolve a record. -/
def fpnTeacherLossResult (self : ConfigurableDistill α)
    (student_losses : List (String × α)) : Option (List (String × α)) :=
  match self.compute_distill_losses self.distill_losses
      self.loss_forward_mappings self.student_recorders
      self.teacher_recorders with
  | some distill_losses =>
    some ( add_prefix student_losses "student" ++ add_prefix distill_losses "distill")
  | none => none

/-! ### Concrete instances, used to evaluate the definitions on small inputs -/

/-- A student-side recorder that always answers `7`. -/
def wStudentRecorder : Recorder Nat := ⟨fun _ _ => some 7⟩

/-- A teacher-side recorder that always answers `9`. -/
def wTeacherRecorder : Recorder Nat := ⟨fun _ _ => some 9⟩

/-- A student manager owning one recorder named `fc`. -/
def wStudentManager : RecorderManager Nat := ⟨[("fc", wStudentRecorder)]⟩

/-- A teacher manager owning one recorder named `fc`. -/
def wTeacherManager : RecorderManager Nat := ⟨[("fc", wTeacherRecorder)]⟩

/-- A loss module with signature `(preds_S, preds_T)` summing its arguments. -/
def wKlLoss : LossModule Nat :=
  ⟨["preds_S", "preds_T"], fun kwargs => (kwargs.map Prod.snd).foldr (· + ·) 0⟩

/-- The example mapping of the source's docstring:
`loss_kl → {preds_S ↦ student fc, preds_T ↦ teacher fc}`. -/
def wMapping : LossForwardMapping :=
  [("loss_kl",
    [("preds_S", ⟨"fc", true, 0, none⟩),
     ("preds_T", ⟨"fc", false, 0, none⟩)])]

/-- The assembled example algorithm instance. -/
def wSelf : ConfigurableDistill Nat :=
  ⟨wStudentManager, wTeacherManager, [("loss_kl", wKlLoss)], wMapping⟩

/-- An empty recorder manager. -/
def cMgr : RecorderManager Nat := ⟨[]⟩

/-- A loss module whose `forward` takes no argument. -/
def cLmNil : LossModule Nat := ⟨[], fun _ => 0⟩

/-- A loss module whose `forward` takes the single argument `x`. -/
def cLmX : LossModule Nat := ⟨["x"], fun _ => 0⟩

/-- Two built losses, `a_loss` and `b_loss`. -/
def cLosses : List (String × LossModule Nat) := [("a_loss", cLmNil), ("b_loss", cLmNil)]

/-- A mapping covering only `a_loss` — a strict subset of `cLosses`' keys. -/
def cMapping : LossForwardMapping := [("a_loss", [])]

/-- One built loss `x_loss` with signature `(x)`. -/
def cLossesX : List (String × LossModule Nat) := [("x_loss", cLmX)]

/-- A mapping for `x_loss` declaring no argument (count 0 against signature
count 1). -/
def cMappingX : LossForwardMapping := [("x_loss", [])]

/-- A record location naming the recorder `r` on the student side. -/
def cLocR : RecordLocation := ⟨"r", true, 0, none⟩

/-- An argument map binding the signature argument `x` to `cLocR`. -/
def cFmX : ArgumentMap := [("x", cLocR)]

/-- A mapping for `x_loss` whose recorder `r` exists in no manager. -/
def cMappingR : LossForwardMapping := [("x_loss", cFmX)]

/-- An argument map binding the undeclared argument `y` to `cLocR`. -/
def cFmY : ArgumentMap := [("y", cLocR)]

/-- A mapping for `x_loss` using the undeclared argument name `y`. -/
def cMappingY : LossForwardMapping := [("x_loss", cFmY)]

/-- Two loss configs, `kd_loss` (contains "loss") and `kd_stat` (does not). -/
def cBuildCfgs : List (String × LossModule Nat) :=
  [("kd_loss", cLmNil), ("kd_stat", cLmNil)]

/-! ### Helper lemmas -/

theorem except_unit_cases (e : Except CheckError Unit) :
    e = .ok () ∨ ∃ err, e = .error err := by
  cases e with
  | ok u => cases u; exact Or.inl rfl
  | error err => exact Or.inr ⟨err, rfl⟩

theorem checkKey_ok_iff {sr tr : RecorderManager α}
    {sig : List String} {ln k : String} {loc : RecordLocation} :
    checkKey sig sr tr ln k loc = .ok () ↔
      k ∈ sig ∧
        ((if loc.from_student then sr else tr).recorders.lookup
          loc.recorder).isSome := by
  unfold checkKey
  by_cases hk : k ∈ sig
  · by_cases hs : loc.from_student
    · by_cases hr : (sr.recorders.lookup loc.recorder).isSome <;>
        simp [hk, hs, hr]
    · by_cases hr : (tr.recorders.lookup loc.recorder).isSome <;>
        simp [hk, hs, hr]
  · simp [hk]

theorem checkKeys_ok_iff {sr tr : RecorderManager α}
    {sig : List String} {ln : String} {fm : ArgumentMap} :
    checkKeys sig sr tr ln fm = .ok () ↔
      ∀ q ∈ fm, checkKey sig sr tr ln q.1 q.2 = .ok () := by
  induction fm with
  | nil => simp [checkKeys]
  | cons q rest ih =>
    rcases except_unit_cases (checkKey sig sr tr ln q.1 q.2) with h | ⟨e, h⟩
    · simpa [checkKeys, h] using ih
    · simp [checkKeys, h]

theorem checkEntry_ok_iff {sr tr : RecorderManager α}
    {losses : List (String × LossModule α)} {ln : String} {fm : ArgumentMap} :
    checkEntry losses sr tr ln fm = .ok () ↔
      ∃ lm, losses.lookup ln = some lm ∧
        lm.params.length = fm.length ∧
        ∀ q ∈ fm, checkKey lm.params sr tr ln q.1 q.2 = .ok () := by
  unfold checkEntry
  cases h : losses.lookup ln with
  | none => simp [h]
  | some lm =>
    by_cases hlen : lm.params.length = fm.length
    · simp [h, hlen, checkKeys_ok_iff]
    · simp [h, hlen]

theorem check_ok_iff {sr tr : RecorderManager α}
    {losses : List (String × LossModule α)} {lfm : LossForwardMapping} :
    check_loss_forward_mappings losses lfm sr tr = .ok () ↔
      ∀ p ∈ lfm, checkEntry losses sr tr p.1 p.2 = .ok () := by
  induction lfm with
  | nil => simp [check_loss_forward_mappings]
  | cons p rest ih =>
    rcases except_unit_cases (checkEntry losses sr tr p.1 p.2) with h | ⟨e, h⟩
    · simpa [check_loss_forward_mappings, h] using ih
    · simp [check_loss_forward_mappings, h]

theorem initLossForwardMappings_error {sr tr : RecorderManager α}
    {losses : List (String × LossModule α)} {lfm : LossForwardMapping}
    {e : CheckError} (hne : lfm.isEmpty = false)
    (hcheck : check_loss_forward_mappings losses lfm sr tr = .error e) :
    initLossForwardMappings losses (some lfm) sr tr = .error e := by
  simp [initLossForwardMappings, hne, hcheck]

theorem check_error_of_entry_not_ok {sr tr : RecorderManager α}
    {losses : List (String × LossModule α)} {lfm : LossForwardMapping}
    {p : String × ArgumentMap} (hp : p ∈ lfm)
    (he : checkEntry losses sr tr p.1 p.2 ≠ .ok ()) :
    ∃ e, check_loss_forward_mappings losses lfm sr tr = .error e := by
  rcases except_unit_cases (check_loss_forward_mappings losses lfm sr tr) with
    h | h
  · exact absurd (check_ok_iff.mp h p hp) he
  · exact h

theorem resolveArgs_spec {self : ConfigurableDistill α} {fm : ArgumentMap}
    {kwargs : List (String × α)} (h : self.resolveArgs fm = some kwargs) :
    kwargs.map Prod.fst = fm.map Prod.fst ∧
      ∀ q ∈ fm.zip kwargs, self.get_record q.1.2 = some q.2.2 := by
  induction fm generalizing kwargs with
  | nil =>
    simp only [ConfigurableDistill.resolveArgs, Option.some.injEq] at h
    subst h
    simp
  | cons q rest ih =>
    rw [ConfigurableDistill.resolveArgs] at h
    cases hv : self.get_record q.2 with
    | none => rw [hv] at h; exact absurd h (by simp)
    | some v =>
      cases hr : self.resolveArgs rest with
      | none => rw [hv, hr] at h; exact absurd h (by simp)
      | some l =>
        rw [hv, hr] at h
        simp only [Option.some.injEq] at h
        subst h
        obtain ⟨ih1, ih2⟩ := ih hr
        refine ⟨by simp [ih1], ?_⟩
        intro p hp
        rcases List.mem_cons.mp hp with h1 | h1
        · subst h1; exact hv
        · exact ih2 p h1

/-- C2: for a validated mapping and populated recorders,
`compute_distill_losses` returns a result whose keys are exactly the
mapping's loss names in the mapping's iteration order, and whose value for
each entry is the loss module applied to the keyword arguments resolved
per argument through `get_record` (manager chosen by the source-side flag,
recorder looked up by name, data retrieved at the given indices). -/
theorem compute_distill_losses_spec {self : ConfigurableDistill α}
    {dl : List (String × LossModule α)} {mapping : LossForwardMapping}
    {sr tr : RecorderManager α} {res : List (String × α)}
    (h : self.compute_distill_losses dl mapping sr tr = some res) :
    res.map Prod.fst = mapping.map Prod.fst ∧
      ∀ p ∈ mapping.zip res,
        ∃ lm kwargs,
          dl.lookup p.1.1 = some lm ∧
          self.resolveArgs p.1.2 = some kwargs ∧
          kwargs.map Prod.fst = p.1.2.map Prod.fst ∧
          (∀ q ∈ p.1.2.zip kwargs, self.get_record q.1.2 = some q.2.2) ∧
          p.2 = (p.1.1, lm.forward kwargs) := by
  induction mapping generalizing res with
  | nil =>
    simp only [ConfigurableDistill.compute_distill_losses,
      Option.some.injEq] at h
    subst h
    simp
  | cons entry rest ih =>
    rw [ConfigurableDistill.compute_distill_losses] at h
    cases hargs : self.resolveArgs entry.2 with
    | none => rw [hargs] at h; exact absurd h (by simp)
    | some kwargs =>
      cases hlm : dl.lookup entry.1 with
      | none => rw [hargs, hlm] at h; exact absurd h (by simp)
      | some lm =>
        cases hrest : self.compute_distill_losses dl rest sr tr with
        | none => rw [hargs, hlm, hrest] at h; exact absurd h (by simp)
        | some acc =>
          rw [hargs, hlm, hrest] at h
          simp only [Option.some.injEq] at h
          subst h
          obtain ⟨ih1, ih2⟩ := ih hrest
          refine ⟨by simp [ih1], ?_⟩
          intro p hp
          rcases List.mem_cons.mp hp with h1 | h1
          · subst h1
            obtain ⟨hk, hget⟩ := resolveArgs_spec hargs
            exact ⟨lm, kwargs, hlm, hargs, hk, hget, rfl⟩
          · exact ih2 p h1

/-- C2 witness: the docstring example evaluated — one student recorder and
one teacher recorder named `fc`, a loss `loss_kl` with signature
`(preds_S, preds_T)`; the driver returns exactly `{loss_kl: 7 + 9}`. -/
theorem compute_distill_losses_spec_witness :
    ([("loss_kl", (16 : Nat))] : List (String × Nat)).map Prod.fst =
      wMapping.map Prod.fst :=
  (@compute_distill_losses_spec Nat wSelf wSelf.distill_losses wMapping
    wStudentManager wTeacherManager [("loss_kl", 16)] rfl).1

/-- C3: the `student_recorders` / `teacher_recorders` parameters of
`compute_distill_losses` are never read — the result is the same for any
pair of manager arguments, every record being resolved through the
instance's own attributes inside `get_record`. -/
theorem compute_distill_losses_ignores_manager_params
    (self : ConfigurableDistill α) (dl : List (String × LossModule α))
    (mapping : LossForwardMapping)
    (sr1 tr1 sr2 tr2 : RecorderManager α) :
    self.compute_distill_losses dl mapping sr1 tr1 =
      self.compute_distill_losses dl mapping sr2 tr2 := by
  induction mapping with
  | nil => rfl
  | cons entry rest ih =>
    rw [ConfigurableDistill.compute_distill_losses,
      ConfigurableDistill.compute_distill_losses, ih]

/-- C7: in the truncated-teacher variant's per-step loss procedure, the
override flag is set to `false` before the teacher forward pass, the teacher
pass runs inside active teacher-recorder and delivery scopes (trunk-only when
the teacher is trainable, full and gradient-disabled otherwise), and the flag
is set to `true` before the student's full forward pass, which runs inside
active student-recorder and delivery scopes. -/
theorem fpn_loss_override_discipline (teacher_trainable : Bool) :
    overrideBefore (fpnTeacherLossTrace teacher_trainable) 1 = some false ∧
    (fpnTeacherLossTrace teacher_trainable).get? 1 =
      some (if teacher_trainable then .teacherExtractFeat true true
            else .teacherFullForward true true true) ∧
    overrideBefore (fpnTeacherLossTrace teacher_trainable) 3 = some true ∧
    (fpnTeacherLossTrace teacher_trainable).get? 3 =
      some (.studentForward true true) := by
  cases teacher_trainable <;> decide

/-- C10: a `None` or empty `loss_forward_mappings` skips validation —
construction stores the empty mapping and succeeds for every built loss set
and every pair of managers — and the driver on the stored empty mapping
returns the empty result. -/
theorem empty_loss_forward_mappings_construction
    (losses : List (String × LossModule α)) (sr tr : RecorderManager α)
    (self : ConfigurableDistill α) (dl : List (String × LossModule α))
    (sr2 tr2 : RecorderManager α) :
    initLossForwardMappings losses none sr tr = .ok [] ∧
    initLossForwardMappings losses (some []) sr tr = .ok [] ∧
    self.compute_distill_losses dl [] sr2 tr2 = some [] :=
  ⟨rfl, rfl, rfl⟩

/-- C4: when some mapping entry declares a number of argument names different
from the number of formal parameters of its loss module, that entry's
validation fails with the SignatureMismatch condition (the count pre-check,
before per-key validation), and construction never stores a mapping — so no
loss computation is ever attempted. -/
theorem signature_count_mismatch_fails
    {losses : List (String × LossModule α)} {lfm : LossForwardMapping}
    {sr tr : RecorderManager α} {loss_name : String} {fm : ArgumentMap}
    {lm : LossModule α}
    (hmem : (loss_name, fm) ∈ lfm)
    (hlm : losses.lookup loss_name = some lm)
    (hcount : lm.params.length ≠ fm.length) :
    checkEntry losses sr tr loss_name fm =
      .error (.signatureMismatch loss_name) ∧
    ∀ stored, initLossForwardMappings losses (some lfm) sr tr ≠ .ok stored := by
  have hentry : checkEntry losses sr tr loss_name fm =
      .error (.signatureMismatch loss_name) := by
    unfold checkEntry
    rw [hlm]
    simp [hcount]
  refine ⟨hentry, ?_⟩
  obtain ⟨e, hcheck⟩ :=
    @check_error_of_entry_not_ok α sr tr losses lfm (loss_name, fm) hmem
      (by simp [hentry])
  have hne : lfm.isEmpty = false := by
    cases lfm with
    | nil => exact absurd hmem (by simp)
    | cons q rest => rfl
  intro stored
  rw [initLossForwardMappings_error hne hcheck]
  simp

/-- C4 witness: `x_loss` has signature `(x)` but its argument map declares no
argument; validation reports SignatureMismatch. -/
theorem signature_count_mismatch_fails_witness :
    checkEntry cLossesX cMgr cMgr "x_loss" [] =
      .error (.signatureMismatch "x_loss") :=
  (@signature_count_mismatch_fails Nat cLossesX cMappingX cMgr cMgr
    "x_loss" [] cLmX (by decide) rfl (by decide)).1

/-- C5: when a record location names a recorder absent from the manager
selected by its `from_student` flag (while its argument name is declared in
the signature), that location's per-key validation fails with the
UnknownRecorder condition, and the whole mapping validation fails. -/
theorem unknown_recorder_fails
    {losses : List (String × LossModule α)} {lfm : LossForwardMapping}
    {sr tr : RecorderManager α} {loss_name : String} {fm : ArgumentMap}
    {k : String} {loc : RecordLocation} {lm : LossModule α}
    (hmem : (loss_name, fm) ∈ lfm)
    (hk : (k, loc) ∈ fm)
    (hlm : losses.lookup loss_name = some lm)
    (hsig : k ∈ lm.params)
    (habs : ((if loc.from_student then sr else tr).recorders.lookup
      loc.recorder).isSome = false) :
    checkKey lm.params sr tr loss_name k loc =
      .error (.unknownRecorder loss_name k) ∧
    ∃ e, check_loss_forward_mappings losses lfm sr tr = .error e := by
  have hkey : checkKey lm.params sr tr loss_name k loc =
      .error (.unknownRecorder loss_name k) := by
    cases hs : loc.from_student with
    | true =>
      rw [hs] at habs
      simp only [if_true] at habs
      unfold checkKey
      simp [hsig, hs, habs]
    | false =>
      rw [hs] at habs
      simp only [Bool.false_eq_true, if_false] at habs
      unfold checkKey
      simp [hsig, hs, habs]
  refine ⟨hkey, ?_⟩
  apply check_error_of_entry_not_ok (p := (loss_name, fm)) hmem
  intro hok
  obtain ⟨lm', hlm', _, hall⟩ := checkEntry_ok_iff.mp hok
  rw [hlm] at hlm'
  cases hlm'
  have := hall (k, loc) hk
  rw [hkey] at this
  exact absurd this (by simp)

/-- C5 witness: the mapping binds `x` to recorder `r` on the student side,
but the student manager owns no recorder named `r`. -/
theorem unknown_recorder_fails_witness :
    checkKey cLmX.params cMgr cMgr "x_loss" "x" cLocR =
      .error (.unknownRecorder "x_loss" "x") :=
  (@unknown_recorder_fails Nat cLossesX cMappingR cMgr cMgr
    "x_loss" cFmX "x" cLocR cLmX
    (by decide) (by decide) rfl (by decide) (by decide)).1

/-- C6: when a mapping entry uses an argument name that is not among the
loss module's formal parameter names, that key's validation fails with the
UnknownArgument condition, and the whole mapping validation fails. -/
theorem unknown_argument_fails
    {losses : List (String × LossModule α)} {lfm : LossForwardMapping}
    {sr tr : RecorderManager α} {loss_name : String} {fm : ArgumentMap}
    {k : String} {loc : RecordLocation} {lm : LossModule α}
    (hmem : (loss_name, fm) ∈ lfm)
    (hk : (k, loc) ∈ fm)
    (hlm : losses.lookup loss_name = some lm)
    (hnot : k ∉ lm.params) :
    checkKey lm.params sr tr loss_name k loc =
      .error (.unknownArgument loss_name k) ∧
    ∃ e, check_loss_forward_mappings losses lfm sr tr = .error e := by
  have hkey : checkKey lm.params sr tr loss_name k loc =
      .error (.unknownArgument loss_name k) := by
    unfold checkKey
    simp [hnot]
  refine ⟨hkey, ?_⟩
  apply check_error_of_entry_not_ok (p := (loss_name, fm)) hmem
  intro hok
  obtain ⟨lm', hlm', _, hall⟩ := checkEntry_ok_iff.mp hok
  rw [hlm] at hlm'
  cases hlm'
  have := hall (k, loc) hk
  rw [hkey] at this
  exact absurd this (by simp)

/-- C6 witness: the mapping binds the name `y`, which is not in `x_loss`'s
signature `(x)`; validation reports UnknownArgument. -/
theorem unknown_argument_fails_witness :
    checkKey cLmX.params cMgr cMgr "x_loss" "y" cLocR =
      .error (.unknownArgument "x_loss" "y") :=
  (@unknown_argument_fails Nat cLossesX cMappingY cMgr cMgr
    "x_loss" cFmY "y" cLocR cLmX
    (by decide) (by decide) rfl (by decide)).1

theorem buildLoop_ok {cfgs : List (String × LossModule α)} {seen : List String}
    (hd : ∀ n ∈ cfgs.map Prod.fst, n ∉ seen)
    (hnd : (cfgs.map Prod.fst).Nodup) :
    buildLoop seen cfgs =
      .ok (cfgs, (cfgs.map Prod.fst).filter fun n => !containsLoss n) := by
  induction cfgs generalizing seen with
  | nil => rfl
  | cons q rest ih =>
    obtain ⟨n, m⟩ := q
    simp only [List.map_cons, List.nodup_cons] at hnd
    have hn : n ∉ seen := hd n (by simp)
    have hdrest : ∀ x ∈ rest.map Prod.fst, x ∉ (n :: seen) := by
      intro x hx
      simp only [List.mem_cons, not_or]
      exact ⟨fun hxe => hnd.1 (hxe ▸ hx), hd x (by simp [hx])⟩
    rw [buildLoop, if_neg hn, ih hdrest hnd.2]
    simp only [List.map_cons, List.filter_cons]
    cases hc : containsLoss n <;> simp [hc]

/-- C9: building the loss set from configs with (necessarily unique) names
emits exactly one warning per name that lacks the substring `"loss"` and
none for a name that contains it, constructs and registers every module in
order, and never fails on account of the naming convention. -/
theorem build_distill_losses_warnings {cfgs : List (String × LossModule α)}
    (hnd : (cfgs.map Prod.fst).Nodup) :
    build_distill_losses (some cfgs) =
      .ok (cfgs, (cfgs.map Prod.fst).filter fun n => !containsLoss n) ∧
    ∀ n ∈ cfgs.map Prod.fst,
      ((cfgs.map Prod.fst).filter fun n => !containsLoss n).count n =
        if containsLoss n then 0 else 1 := by
  refine ⟨buildLoop_ok (by simp) hnd, ?_⟩
  intro n hn
  cases hc : containsLoss n with
  | true =>
    simp only [if_true]
    refine List.count_eq_zero.mpr ?_
    intro hmem
    have := (List.mem_filter.mp hmem).2
    simp [hc] at this
  | false =>
    have h2 : List.count n
        (List.filter (fun x => !containsLoss x) (List.map Prod.fst cfgs)) =
        List.count n (List.map Prod.fst cfgs) :=
      List.count_filter (by simp [hc])
    rw [if_neg (by simp [hc]), h2, List.count_eq_one_of_mem hnd hn]

/-- C9 witness: `kd_loss` (contains "loss") produces no warning, `kd_stat`
produces exactly the one warning, and both modules are registered. -/
theorem build_distill_losses_warnings_witness :
    build_distill_losses (some cBuildCfgs) = .ok (cBuildCfgs, ["kd_stat"]) :=
  (@build_distill_losses_warnings Nat cBuildCfgs (by decide)).1

theorem lookup_mem {l : List (String × β)} {k : String} {v : β}
    (h : l.lookup k = some v) : (k, v) ∈ l := by
  induction l with
  | nil => exact Option.noConfusion h
  | cons q rest ih =>
    rw [List.lookup] at h
    cases hb : (k == q.1) with
    | true =>
      rw [hb] at h
      simp only [Option.some.injEq] at h
      have : k = q.1 := eq_of_beq hb
      subst this
      subst h
      exact List.mem_cons_self _ _
    | false =>
      rw [hb] at h
      exact List.mem_cons_of_mem _ (ih h)

theorem toFinset_eq_of_len_subset {ks ps : List String}
    (h1 : ks.Nodup) (h2 : ps.Nodup)
    (hlen : ps.length = ks.length) (hsub : ∀ k ∈ ks, k ∈ ps) :
    ks.toFinset = ps.toFinset := by
  apply Finset.eq_of_subset_of_card_le
  · intro x hx
    exact List.mem_toFinset.mpr (hsub x (List.mem_toFinset.mp hx))
  · rw [List.toFinset_card_of_nodup h1, List.toFinset_card_of_nodup h2, hlen]

/-- C1 (amended): against a built loss set, validation succeeds iff every
key of the mapping is a key of the built losses (subset — not the bijective
correspondence the claim states), every entry's argument-name set equals
exactly the formal-parameter-name set of its loss module, and every record
location's recorder exists in the manager selected by its source-side
flag. -/
theorem check_ok_iff_subset_and_exact_args
    {losses : List (String × LossModule α)} {lfm : LossForwardMapping}
    {sr tr : RecorderManager α}
    (hL : ∀ p ∈ losses, p.2.params.Nodup)
    (hM : ∀ p ∈ lfm, (p.2.map Prod.fst).Nodup) :
    check_loss_forward_mappings losses lfm sr tr = .ok () ↔
      ∀ p ∈ lfm, ∃ lm, losses.lookup p.1 = some lm ∧
        (p.2.map Prod.fst).toFinset = lm.params.toFinset ∧
        ∀ q ∈ p.2, ((if q.2.from_student then sr else tr).recorders.lookup
          q.2.recorder).isSome := by
  rw [check_ok_iff]
  constructor
  · intro h p hp
    obtain ⟨lm, hlm, hlen, hall⟩ := checkEntry_ok_iff.mp (h p hp)
    have hpnd : lm.params.Nodup := hL (p.1, lm) (lookup_mem hlm)
    refine ⟨lm, hlm, ?_, ?_⟩
    · apply toFinset_eq_of_len_subset (hM p hp) hpnd
      · rw [List.length_map]; exact hlen
      · intro k hk
        obtain ⟨q, hq, hqk⟩ := List.mem_map.mp hk
        exact hqk ▸ (checkKey_ok_iff.mp (hall q hq)).1
    · intro q hq
      exact (checkKey_ok_iff.mp (hall q hq)).2
  · intro h p hp
    obtain ⟨lm, hlm, hfin, hrec⟩ := h p hp
    have hpnd : lm.params.Nodup := hL (p.1, lm) (lookup_mem hlm)
    apply checkEntry_ok_iff.mpr
    have hcard := congrArg Finset.card hfin
    rw [List.toFinset_card_of_nodup (hM p hp),
      List.toFinset_card_of_nodup hpnd, List.length_map] at hcard
    refine ⟨lm, hlm, hcard.symm, ?_⟩
    intro q hq
    apply checkKey_ok_iff.mpr
    refine ⟨?_, hrec q hq⟩
    have : q.1 ∈ (p.2.map Prod.fst).toFinset :=
      List.mem_toFinset.mpr (List.mem_map.mpr ⟨q, hq, rfl⟩)
    rw [hfin] at this
    exact List.mem_toFinset.mp this

/-- C1 counterexample: with built losses `{a_loss, b_loss}`, a mapping
covering only `a_loss` (a strict subset of the loss keys) validates
successfully, so validation success does not require the key set of the
mapping to equal the key set of the built losses. -/
theorem check_not_bijective_counterexample :
    check_loss_forward_mappings cLosses cMapping cMgr cMgr = .ok () ∧
    (cMapping.map Prod.fst).toFinset ≠ (cLosses.map Prod.fst).toFinset := by
  refine ⟨rfl, ?_⟩
  decide

/-- C1 witness: the amended characterization instantiated at the docstring
example configuration. -/
theorem check_ok_iff_subset_and_exact_args_witness :
    check_loss_forward_mappings [("loss_kl", wKlLoss)] wMapping
      wStudentManager wTeacherManager = .ok () ↔
      ∀ p ∈ wMapping, ∃ lm,
        ([("loss_kl", wKlLoss)] : List (String × LossModule Nat)).lookup p.1 =
          some lm ∧
        (p.2.map Prod.fst).toFinset = lm.params.toFinset ∧
        ∀ q ∈ p.2, ((if q.2.from_student then wStudentManager
          else wTeacherManager).recorders.lookup q.2.recorder).isSome :=
  @check_ok_iff_subset_and_exact_args Nat [("loss_kl", wKlLoss)] wMapping
    wStudentManager wTeacherManager
    (by intro p hp; simp only [List.mem_singleton] at hp; subst hp; decide)
    (by intro p hp; simp only [wMapping, List.mem_singleton] at hp;
        subst hp; decide)

/-- C8: when the distillation driver succeeds, the result of the
truncated-teacher variant's per-step loss procedure contains exactly the
student forward pass's losses under the `student` prefix together with the
driver's losses under the `distill` prefix, and no other entries. -/
theorem fpn_loss_result_spec {self : ConfigurableDistill α}
    {student_losses distill : List (String × α)}
    (hd : self.compute_distill_losses self.distill_losses
      self.loss_forward_mappings self.student_recorders
      self.teacher_recorders = some distill) :
    ∃ res, fpnTeacherLossResult self student_losses = some res ∧
      ∀ k v, ((k, v) ∈ res ↔
        (∃ k0, k = "student" ++ "." ++ k0 ∧ (k0, v) ∈ student_losses) ∨
        (∃ k0, k = "distill" ++ "." ++ k0 ∧ (k0, v) ∈ distill)) := by
  refine ⟨ add_prefix student_losses "student" ++ add_prefix distill "distill",
    ?_, ?_⟩
  · unfold fpnTeacherLossResult
    rw [hd]
  · intro k v
    simp only [List.mem_append, add_prefix, List.mem_map]
    constructor
    · rintro (⟨kv, hkv, heq⟩ | ⟨kv, hkv, heq⟩)
      · cases heq
        exact Or.inl ⟨kv.1, rfl, hkv⟩
      · cases heq
        exact Or.inr ⟨kv.1, rfl, hkv⟩
    · rintro (⟨k0, hk, hmem⟩ | ⟨k0, hk, hmem⟩)
      · exact Or.inl ⟨(k0, v), hmem, by rw [hk]⟩
      · exact Or.inr ⟨(k0, v), hmem, by rw [hk]⟩

/-- C8 witness: with the example instance, student losses `{ce: 3}` and the
driver producing `{loss_kl: 16}`, the combined result holds exactly
`student.ce` and `distill.loss_kl`. -/
theorem fpn_loss_result_spec_witness :
    ∃ res, fpnTeacherLossResult wSelf [("ce", 3)] = some res ∧
      ∀ k v, ((k, v) ∈ res ↔
        (∃ k0, k = "student" ++ "." ++ k0 ∧
          (k0, v) ∈ ([("ce", 3)] : List (String × Nat))) ∨
        (∃ k0, k = "distill" ++ "." ++ k0 ∧
          (k0, v) ∈ ([("loss_kl", 16)] : List (String × Nat)))) :=
  @fpn_loss_result_spec Nat wSelf [("ce", 3)] [("loss_kl", 16)] rfl

end Mmrazor
